import Mathlib

/-!
Verification development for the `hermes_pdf_shift_http` repository.

The development shallowly embeds the two core subsystems of the repository:
the PDF content-stream parser (`src/parsing/shift_parsing.rs` together with
the data structures of `src/shift_indexing/shift_scructs.rs`) and the
timetable versioning resolver (`src/main.rs`, `src/index.rs`).

Modelling conventions:
 - Rust `f32` coordinate values are modelled exactly by `Dec`, a decimal
   fixed-point number `num / 10 ^ exp` (the source only ever compares
   coordinates, subtracts offsets and negates, so exact decimal arithmetic
   is a faithful model of the values actually occurring).
 - `time::Date` values are modelled by integer codes that respect calendar
   order (`y*10000 + m*100 + d` for parsed dates); the source only compares,
   stores and formats dates.
 - Rust `usize`/`u32`/`u8` parsing is modelled with explicit upper bounds;
   `usize` arithmetic that can wrap is modelled explicitly mod `2^64`.
 - `HashMap` values are modelled as association lists with first-match
   lookup and replace-in-place insertion; `HashMap` equality is extensional
   (pointwise lookup), which is exactly the equality of hash maps.
 - A page content stream is modelled as its list of lines (the source
   splits the stream with `str::lines` before the parsing logic runs).
 - Core `String` helpers of Rust (`replace`, `split`, `contains`,
   `to_lowercase`, numeric `parse`) are re-implemented on `List Char`
   so that every definition is executable by kernel reduction; numeric
   float parsing models the plain decimal fragment actually occurring in
   content streams ([sign] digits [ '.' digits ]).
-/

deriving instance DecidableEq for Except

/-! ## Character and string utilities (models of Rust std primitives) -/

/-- Model of Rust `char::is_ascii_whitespace` style whitespace used by
`split_ascii_whitespace` (space, tab, newline, carriage return, form feed). -/
def isAsciiWs (c : Char) : Bool :=
  c = ' ' || c = '\t' || c = '\n' || c = '\r' || c = '\x0c'

/-- Worker for whitespace splitting; `acc` holds the current run reversed. -/
def splitWsGo : List Char → List Char → List (List Char)
  | [], acc => if acc.isEmpty then [] else [acc.reverse]
  | c :: rest, acc =>
    if isAsciiWs c then
      if acc.isEmpty then splitWsGo rest [] else acc.reverse :: splitWsGo rest []
    else splitWsGo rest (c :: acc)

/-- Model of Rust `str::split_ascii_whitespace`: the non-empty maximal runs
of non-whitespace characters. -/
def splitWs (cs : List Char) : List (List Char) := splitWsGo cs []

/-- Prepend a character onto the first piece of a split result. -/
def consHead (c : Char) : List (List Char) → List (List Char)
  | [] => [[c]]
  | p :: ps => (c :: p) :: ps

/-- Model of Rust `str::split` with a single-character pattern: all pieces
between occurrences of `sep`, empty pieces included. -/
def splitOnChar (sep : Char) : List Char → List (List Char)
  | [] => [[]]
  | c :: rest =>
    if c = sep then [] :: splitOnChar sep rest
    else consHead c (splitOnChar sep rest)

/-- Decimal digit-string value (no sign handling). -/
def digitsToNat (cs : List Char) : Nat :=
  cs.foldl (fun a c => a * 10 + (c.toNat - '0'.toNat)) 0

/-- Model of Rust unsigned-integer `FromStr` (`u8`/`u32`/`usize` via
`maxVal`): an optional leading `'+'`, then one or more ASCII digits, and
the value must not exceed the type maximum (overflow is a parse error). -/
def parseRustUint (cs : List Char) (maxVal : Nat) : Option Nat :=
  let body := if cs.head? = some '+' then cs.tail else cs
  if body ≠ [] ∧ body.all Char.isDigit then
    let v := digitsToNat body
    if v ≤ maxVal then some v else none
  else none

def u8max : Nat := 255
def u32max : Nat := 2 ^ 32 - 1
def usizemax : Nat := 2 ^ 64 - 1

/-- Fuel-driven worker for substring replacement (left-to-right,
non-overlapping, as Rust `str::replace`). -/
def replaceFuel (pat rep : List Char) : Nat → List Char → List Char
  | _, [] => []
  | 0, s => s
  | fuel + 1, c :: rest =>
    if pat ≠ [] ∧ pat.isPrefixOf (c :: rest) then
      rep ++ replaceFuel pat rep fuel ((c :: rest).drop pat.length)
    else c :: replaceFuel pat rep fuel rest

/-- Model of Rust `str::replace`. -/
def replaceStr (s pat rep : String) : String :=
  String.mk (replaceFuel pat.toList rep.toList s.toList.length s.toList)

/-- Fuel-driven worker for substring splitting; `acc` holds the current
piece reversed. -/
def splitOnStrFuel (sep : List Char) : Nat → List Char → List Char → List (List Char)
  | 0, acc, s => [acc.reverse ++ s]
  | fuel + 1, acc, s =>
    match s with
    | [] => [acc.reverse]
    | c :: rest =>
      if sep ≠ [] ∧ sep.isPrefixOf s then
        acc.reverse :: splitOnStrFuel sep fuel [] (s.drop sep.length)
      else splitOnStrFuel sep fuel (c :: acc) rest

/-- Model of Rust `str::split` with a multi-character pattern. -/
def splitOnStr (s sep : String) : List String :=
  (splitOnStrFuel sep.toList (s.toList.length + 1) [] s.toList).map String.mk

/-- Contiguous-sublist test, worker for `containsStr`. -/
def infixL (pat : List Char) : List Char → Bool
  | [] => pat.isEmpty
  | c :: rest => pat.isPrefixOf (c :: rest) || infixL pat rest

/-- Model of Rust `str::contains` with a string pattern. -/
def containsStr (s pat : String) : Bool := infixL pat.toList s.toList

/-- ASCII lower-casing of one character (model of `char::to_lowercase` on
the ASCII texts occurring in the content streams). -/
def toLowerAscii (c : Char) : Char :=
  if 'A' ≤ c ∧ c ≤ 'Z' then Char.ofNat (c.toNat + 32) else c

/-- ASCII upper-casing of one character (model of `str::to_uppercase` on
the ASCII shift-request strings). -/
def toUpperAscii (c : Char) : Char :=
  if 'a' ≤ c ∧ c ≤ 'z' then Char.ofNat (c.toNat - 32) else c

def lowerStr (s : String) : String := String.mk (s.toList.map toLowerAscii)

def upperStr (s : String) : String := String.mk (s.toList.map toUpperAscii)

/-- The alphabetic characters of a string, in order (model of
`chars().filter(char::is_alphabetic).collect()` on ASCII input). -/
def alphaOf (s : String) : String := String.mk (s.toList.filter Char.isAlpha)

/-- The non-alphabetic characters of a string, in order (model of
`chars().filter(|c| !c.is_alphabetic()).collect()` on ASCII input). -/
def filterNonAlpha (s : String) : String :=
  String.mk (s.toList.filter (fun c => !c.isAlpha))

/-! ## Calendar dates

Dates are represented by the integer code `y*10000 + m*100 + d`, which is
strictly monotone in calendar order for the Gregorian dates handled by the
program. -/

def isLeapYear (y : Nat) : Bool :=
  y % 4 = 0 && (y % 100 ≠ 0 || y % 400 = 0)

def daysInMonth (y m : Nat) : Nat :=
  if m = 2 then (if isLeapYear y then 29 else 28)
  else if m = 4 ∨ m = 6 ∨ m = 9 ∨ m = 11 then 30
  else 31

def dateCode (y m d : Nat) : Int := ((y * 10000 + m * 100 + d : Nat) : Int)

/-- Model of `time::Date::parse` with the program's `[day]-[month]-[year]`
format description: exactly two day digits, two month digits, four year
digits, dash separators, full input consumed, and a valid calendar date. -/
def parseDateDMY (s : String) : Option Int :=
  match s.toList with
  | [d1, d2, h1, m1, m2, h2, y1, y2, y3, y4] =>
    if h1 = '-' ∧ h2 = '-' ∧ [d1, d2, m1, m2, y1, y2, y3, y4].all Char.isDigit then
      let day := digitsToNat [d1, d2]
      let month := digitsToNat [m1, m2]
      let year := digitsToNat [y1, y2, y3, y4]
      if 1 ≤ month ∧ month ≤ 12 ∧ 1 ≤ day ∧ day ≤ daysInMonth year month then
        some (dateCode year month day)
      else none
    else none
  | _ => none

/-! ## Exact decimal numbers, the model of the source's `f32` coordinates -/

/-- An exact decimal number `num / 10 ^ exp`.  Comparisons are by value
(cross multiplication), so distinct representations of the same value
behave identically, exactly like the numeric values they stand for. -/
structure Dec where
  num : Int
  exp : Nat
deriving DecidableEq, Repr

def Dec.ofInt (n : Int) : Dec := ⟨n, 0⟩

instance : OfNat Dec n := ⟨⟨(n : Int), 0⟩⟩

instance : OfScientific Dec :=
  ⟨fun m b e => if b then ⟨(m : Int), e⟩ else ⟨(m : Int) * (10 : Int) ^ e, 0⟩⟩

/-- Value equality of decimals (model of `f32` equality on the exact
decimal values occurring in content streams). -/
def Dec.beq (a b : Dec) : Bool := a.num * (10 : Int) ^ b.exp = b.num * (10 : Int) ^ a.exp

/-- Value order `a ≤ b`. -/
def Dec.ble (a b : Dec) : Bool := a.num * (10 : Int) ^ b.exp ≤ b.num * (10 : Int) ^ a.exp

/-- Value order `a < b`. -/
def Dec.blt (a b : Dec) : Bool := a.num * (10 : Int) ^ b.exp < b.num * (10 : Int) ^ a.exp

def Dec.neg (a : Dec) : Dec := ⟨-a.num, a.exp⟩

def Dec.sub (a b : Dec) : Dec :=
  ⟨a.num * (10 : Int) ^ b.exp - b.num * (10 : Int) ^ a.exp, a.exp + b.exp⟩

instance : Neg Dec := ⟨Dec.neg⟩
instance : Sub Dec := ⟨Dec.sub⟩

/-- Model of Rust `f32` `FromStr` restricted to the plain decimal fragment
`[sign] digits [ '.' digits ]` actually produced by the PDF writer (the
exotic float syntaxes — exponents, infinities, NaN — do not occur). -/
def parseDec (cs : List Char) : Option Dec :=
  let (sign, body) : Int × List Char := match cs with
    | '+' :: r => (1, r)
    | '-' :: r => (-1, r)
    | _ => (1, cs)
  match splitOnChar '.' body with
  | [intp] =>
    if intp ≠ [] ∧ intp.all Char.isDigit then
      some ⟨sign * (digitsToNat intp : Int), 0⟩
    else none
  | [intp, frac] =>
    if (intp ≠ [] ∨ frac ≠ []) ∧ intp.all Char.isDigit ∧ frac.all Char.isDigit then
      some ⟨sign * ((digitsToNat intp * 10 ^ frac.length + digitsToNat frac : Nat) : Int),
            frac.length⟩
    else none
  | _ => none

/-- First minimum of a list of decimals (model of `Iterator::min` over
`FloatOrd` values). -/
def minDec? : List Dec → Option Dec
  | [] => none
  | x :: rest =>
    match minDec? rest with
    | none => some x
    | some m => some (if Dec.blt m x then m else x)

/-! ## Shift data structures (src/shift_indexing/shift_scructs.rs) -/

/-- Structured parse errors (`ShiftParseError` in the source).  The
`Option` variant of the source is named `OptionUnwrap` here because
`Option` would clash with the Lean option type; `parseIntErrorMessage`
stands in for the host library's `ParseIntError` display text. -/
inductive ShiftParseError where
  | GenericShiftError (page_number : Nat) (error : String) (line : Option String)
  | MetadataFailure (page_number : Nat) (line : Option String)
  | OptionUnwrap (function : String) (parsing_job : Option String) (line : Option String)
deriving DecidableEq, Repr

/-- Placeholder for the host `ParseIntError`'s display text (its exact
wording is a standard-library detail the program merely forwards). -/
def parseIntErrorMessage : String := "invalid digit found in string"

/-- Validity patterns (`ShiftValid`).  The struct file included under
`src/` lists `Weekdays`, `Saturday`, `Sunday`, `Unknown`; the parser in
`src/parsing/shift_parsing.rs` additionally uses the
`WeekdaysExceptWednesday` and `Wednesday` variants of the (not included)
`parsing/shift_structs.rs`, reconstructed here from those uses and the
spec's §4.4. -/
inductive ShiftValid where
  | Weekdays
  | WeekdaysExceptWednesday
  | Wednesday
  | Saturday
  | Sunday
  | Unknown
deriving DecidableEq, Repr

/-- Time of day (`time::Time` as used by the program: hours and minutes,
seconds always zero). -/
structure Time where
  hour : Nat
  minute : Nat
deriving DecidableEq, Repr

/-- Model of `time::Time::from_hms(h, m, s)` as an option (`.ok()` in the
source discards the error payload). -/
def Time.from_hms (hour minute second : Nat) : Option Time :=
  if hour ≤ 23 ∧ minute ≤ 59 ∧ second ≤ 59 then some ⟨hour, minute⟩ else none

inductive ShiftType where
  | Vroeg
  | Tussen
  | Dag
  | Gebroken (start_break : Option Time) (end_break : Option Time)
  | Laat
deriving DecidableEq, Repr

inductive JobDrivingType where
  | Lijn (n : Nat)
  | Mat
deriving DecidableEq, Repr

inductive JobMessageType where
  | Meenemen (dienstnummers : List Nat)
  | Passagieren (dienstnummer : Nat) (omloop : String)
  | BusOp (lijn : Nat)
  | NeemBus (bustype : String)
  | Other (s : String)
deriving DecidableEq, Repr

inductive JobType where
  | Rijden (drive_type : JobDrivingType)
  | Pauze
  | Onderbreking
  | OpAfstap
  | RijklaarMaken
  | StallenAfmelden
  | Melding (message : JobMessageType)
  | LoopReis
  | Reserve
  | Unknown
deriving DecidableEq, Repr

/-- One job of a shift.  The source field `end` is named `endTime` here
(`end` is a Lean keyword). -/
structure ShiftJob where
  job_type : JobType
  start : Option Time
  endTime : Option Time
  start_location : Option String
  end_location : Option String
  omloop : Option Nat
  rit : Option Nat
deriving DecidableEq, Repr

/-- `ShiftJob::empty` exactly as in `shift_scructs.rs`: it tests the job
type and the start/end/start_location/end_location fields (and only
those). -/
def ShiftJob.empty (j : ShiftJob) : Bool :=
  j.job_type == JobType.Unknown && j.start.isNone && j.endTime.isNone &&
    j.start_location.isNone && j.end_location.isNone

/-- A parsed shift (`Shift`); `starting_date` carries a date code. -/
structure Shift where
  shift_nr : String
  valid_on : ShiftValid
  location : String
  shift_type : Option ShiftType
  job : List ShiftJob
  starting_date : Int
  parse_error : Option (List ShiftParseError)
deriving DecidableEq, Repr

/-! ## The content-stream parser (src/parsing/shift_parsing.rs) -/

/-- `message_type_finder`: classify a non-numeric line/duty cell via its
first whitespace-separated word, lower-cased. -/
def message_type_finder (lijn_string : String) : Option JobMessageType :=
  match (splitWs lijn_string.toList).head? with
  | none => none
  | some w =>
    let lijn_first_word := String.mk (w.map toLowerAscii)
    if lijn_first_word = "neem" then
      some (.NeemBus (replaceStr lijn_string "neem " ""))
    else if lijn_first_word = "bus" then
      match parseRustUint (replaceStr lijn_string "Bus op lijn " "").toList u32max with
      | some n => some (.BusOp n)
      | none => none
    else if lijn_first_word = "pod" then some (.NeemBus lijn_string)
    else if lijn_first_word = "pass" then
      let lijn_string_split := replaceStr lijn_string "Pass met " ""
      match (splitWs lijn_string_split.toList).head? with
      | none => none
      | some fw =>
        match splitOnChar '/' fw with
        | [] => none
        | d :: rest =>
          match parseRustUint d u32max with
          | none => none
          | some dienstnummer =>
            match rest.head? with
            | none => none
            | some o => some (.Passagieren dienstnummer (String.mk o))
    else if lijn_first_word = "meenemen" then some (.Other lijn_string)
    else some (.Other lijn_string)

/-- `to_iso8601`: split a time cell on `':'`, parse hour and minute as
`u8`, subtract 24 from an hour of 24 or more, and build the time of day. -/
def to_iso8601 (time_string : String) (job_name : String) :
    Except ShiftParseError (Option Time) :=
  let parts := splitOnChar ':' time_string.toList
  match parts.head? with
  | none =>
    .error (.OptionUnwrap "Time hour" (some job_name) (some time_string))
  | some hcs =>
    match parseRustUint hcs u8max with
    | none => .error (.GenericShiftError 1 parseIntErrorMessage (some time_string))
    | some hour_noniso =>
      match parts.get? 1 with
      | none =>
        .error (.OptionUnwrap "Time minute" (some job_name) (some time_string))
      | some mcs =>
        match parseRustUint mcs u8max with
        | none => .error (.GenericShiftError 2 parseIntErrorMessage (some time_string))
        | some minute =>
          let hour_iso := if 24 ≤ hour_noniso then hour_noniso - 24 else hour_noniso
          .ok (Time.from_hms hour_iso minute 0)

/-- `job_creator`: build a `ShiftJob` from the raw per-column cells of a
finalized row, in the source's evaluation order (a time-parse failure
escapes before the cycle column is examined). -/
def job_creator (lijn omloop rit start eind van naar : Option String) :
    Except ShiftParseError ShiftJob :=
  let job_type0 : JobType := match lijn with
    | none => .Unknown
    | some lijn_string =>
      if lijn_string = "MAT" then .Rijden .Mat
      else if lijn_string = "Pauze" then .Pauze
      else match parseRustUint lijn_string.toList u32max with
        | some lijn_parse => .Rijden (.Lijn lijn_parse)
        | none =>
          if lijn_string = "Op/Afstaptijd" then .OpAfstap
          else
            .Melding (match message_type_finder lijn_string with
              | some message => message
              | none => .Other lijn_string)
  let rit_number : Option Nat := match rit with
    | none => none
    | some rit_string => parseRustUint rit_string.toList usizemax
  match (match start with
         | none => Except.ok none
         | some start_string => to_iso8601 start_string "Start time") with
  | .error e => .error e
  | .ok start_time =>
    match (match eind with
           | none => Except.ok none
           | some end_string => to_iso8601 end_string "End time") with
    | .error e => .error e
    | .ok end_time =>
      let (job_type1, omloop_number) : JobType × Option Nat := match omloop with
        | none => (job_type0, none)
        | some omloop_string =>
          if omloop_string = "Onderbreking" then (.Onderbreking, none)
          else if omloop_string = "Loop/Reis" then (.LoopReis, none)
          else if omloop_string = "Rijklaar maken" then (.RijklaarMaken, none)
          else if omloop_string = "Bus stallen/afm" then (.StallenAfmelden, none)
          else if omloop_string = "Reserve" then (.Reserve, none)
          else (job_type0, parseRustUint omloop_string.toList usizemax)
      .ok ⟨job_type1, start_time, end_time, van, naar, omloop_number, rit_number⟩

/-- The mutable row/metadata state threaded through `get_line_information`
(the source passes the fields as `&mut` references). -/
structure RowState where
  lijn : Option String
  omloop : Option String
  rit : Option String
  start : Option String
  van : Option String
  naar : Option String
  eind : Option String
  jobs : List ShiftJob
  start_date : Int
  valid_on : ShiftValid
  shift_number : String
  location : String
deriving DecidableEq, Repr

/-- `identify_metadata` of `shift_parsing.rs`: literal substring rules in
priority order; `none` models the `Option`-failure path (only a
non-parsing `Ingangsdatum` date), which mutates nothing. -/
def identify_metadata (st : RowState) (metadata : String) (current_y current_x : Dec) :
    Option RowState :=
  if containsStr metadata "Ingangsdatum " then
    match (splitOnStr metadata "Ingangsdatum ").getLast? with
    | none => none
    | some tail =>
      match parseDateDMY tail with
      | none => none
      | some d => some { st with start_date := d }
  else if containsStr metadata "Dienst " then
    match (splitOnStr metadata "Dienst ").getLast? with
    | none => none
    | some tail => some { st with shift_number := replaceStr tail " " "" }
  else if containsStr metadata "MA/DI/WO/DO/VR" then some { st with valid_on := .Weekdays }
  else if containsStr metadata "MA/DI/DO/VR" then
    some { st with valid_on := .WeekdaysExceptWednesday }
  else if containsStr metadata "WO" then some { st with valid_on := .Wednesday }
  else if containsStr metadata "ZA" then some { st with valid_on := .Saturday }
  else if containsStr metadata "ZO" then some { st with valid_on := .Sunday }
  else if Dec.blt (760.0 : Dec) current_y && Dec.blt (300.0 : Dec) current_x then
    some { st with location := metadata }
  else some st

/-- The routing half of `get_line_information`: metadata extraction for
tokens outside the table band, otherwise column classification by the
x coordinate against the offset-shifted bounds of `shift_parsing.rs`. -/
def gli_route (st1 : RowState) (current_y current_x offset : Dec)
    (page_number : Nat) (line : String) : RowState × Option ShiftParseError :=
  if Dec.blt current_y (50.0 : Dec) || Dec.blt (735.0 : Dec) current_y then
    match identify_metadata st1 line current_y current_x with
    | some st2 => (st2, none)
    | none => (st1, some (.MetadataFailure page_number none))
  else if Dec.ble ((83.0 : Dec) - 83.0 - offset) current_x &&
      Dec.ble current_x ((150.0 : Dec) - 83.0 - offset) then
    ({ st1 with lijn := some line }, none)
  else if Dec.ble ((150.1 : Dec) - 83.0 - offset) current_x &&
      Dec.ble current_x ((290.0 : Dec) - 83.0 - offset) then
    ({ st1 with omloop := some line }, none)
  else if Dec.ble ((300.0 : Dec) - 83.0 - offset) current_x &&
      Dec.ble current_x ((350.0 : Dec) - 83.0 - offset) then
    ({ st1 with rit := some line }, none)
  else if Dec.ble ((350.0 : Dec) - 83.0 - offset) current_x &&
      Dec.ble current_x ((390.0 : Dec) - 83.0 - offset) then
    ({ st1 with start := some line }, none)
  else if Dec.ble ((400.0 : Dec) - 83.0 - offset) current_x &&
      Dec.ble current_x ((420.0 : Dec) - 83.0 - offset) then
    ({ st1 with van := some line }, none)
  else if Dec.ble ((450.0 : Dec) - 83.0 - offset) current_x &&
      Dec.ble current_x ((480.0 : Dec) - 83.0 - offset) then
    ({ st1 with naar := some line }, none)
  else if Dec.ble ((490.0 : Dec) - 83.0 - offset) current_x then
    ({ st1 with eind := some line }, none)
  else (st1, none)

/-- `get_line_information` of `shift_parsing.rs` as a pure state
transformer: first the row-boundary finalize (only when the y coordinate
changed; the built job is appended unless `ShiftJob::empty`, and the row
cells are reset), then metadata routing or column classification.  A
`some` error in the second component models the function's `Err` return;
the state component carries the mutations that had already happened
through the `&mut` references at that point. -/
def get_line_information (st : RowState) (last_y current_y current_x offset : Dec)
    (page_number : Nat) (line : String) : RowState × Option ShiftParseError :=
  let step1 : RowState × Option ShiftParseError :=
    if !(Dec.beq last_y current_y) then
      match job_creator st.lijn st.omloop st.rit st.start st.eind st.van st.naar with
      | .error e => (st, some e)
      | .ok job =>
        ({ st with
            jobs := if !job.empty then st.jobs ++ [job] else st.jobs,
            lijn := none, omloop := none, rit := none, start := none,
            van := none, naar := none, eind := none }, none)
    else (st, none)
  match step1 with
  | (st1, some e) => (st1, some e)
  | (st1, none) => gli_route st1 current_y current_x offset page_number line

/-- One extracted content token: text plus its `(x, y)` coordinate. -/
abbrev ContentToken := String × Dec × Dec

/-- The per-token loop of `get_line_element`: thread the row state, the
previous y coordinate and the collected errors through the token list. -/
def gle_loop (offset : Dec) (page_number : Nat) :
    List ContentToken → RowState → Dec → List ShiftParseError →
    RowState × List ShiftParseError
  | [], st, _, errs => (st, errs)
  | item :: rest, st, last_y, errs =>
    let r := get_line_information st last_y item.2.2 item.2.1 offset page_number item.1
    let errs' := match r.2 with
      | some e => errs ++ [e]
      | none => errs
    gle_loop offset page_number rest r.1 item.2.2 errs'

/-- `get_line_element` of `shift_parsing.rs`: seed the row state from the
first token's y coordinate, run the token loop collecting per-token
errors, and assemble the `Shift` (errors become `parse_error`; the row
accumulated at the end is not flushed). -/
def get_line_element (items : List ContentToken) (offset : Dec) (page_number : Nat)
    (shift_number : String) : Except ShiftParseError Shift :=
  match items with
  | [] => .error (.OptionUnwrap "first line" none none)
  | first :: _ =>
    let st0 : RowState :=
      ⟨none, none, none, none, none, none, none, [], dateCode 2025 6 29, .Unknown,
        shift_number, ""⟩
    let r := gle_loop offset page_number items st0 first.2.2 []
    .ok ⟨r.1.shift_number, r.1.valid_on, r.1.location, none, r.1.jobs, r.1.start_date,
         if r.2.isEmpty then none else some r.2⟩

/-- Page-level error type: structured `ShiftParseError`s and the boxed
`ParseFloatError` of a coordinate that fails to parse (both flow into the
function's `Box<dyn Error>` result). -/
inductive GenErr where
  | shift (e : ShiftParseError)
  | floatParse (s : String)
deriving DecidableEq, Repr

/-- The `usize` subtraction `line_number - 1` as it behaves in release
builds: wrap-around modulo `2^64`. -/
def usizeWrapSub1 (n : Nat) : Nat := (n + (2 ^ 64 - 1)) % 2 ^ 64

/-- Checked `usize` subtraction, the debug-build semantics: `none` models
the underflow panic. -/
def checkedSub (a b : Nat) : Option Nat := if b ≤ a then some (a - b) else none

/-- All lazy parenthesized-literal captures of one line, in order, as the
regex `\((.*?)\)` finds them (non-overlapping, a capture runs to the first
closing parenthesis).  The second argument is the pending capture. -/
def parenScan : List Char → Option (List Char) → List String
  | [], _ => []
  | c :: rest, none =>
    if c = '(' then parenScan rest (some []) else parenScan rest none
  | c :: rest, some acc =>
    if c = ')' then String.mk acc :: parenScan rest none
    else parenScan rest (some (acc ++ [c]))

def parenCaptures (s : String) : List String := parenScan s.toList none

/-- Read a token's coordinate from the line at index `j`: split the line
on ASCII whitespace and parse the first two fields as floats. -/
def line_coordinate_at (ls : List String) (j : Nat) : Except GenErr (Dec × Dec) :=
  match ls.get? j with
  | none => .error (.shift (.OptionUnwrap "line coordinates" none none))
  | some prev =>
    let ws := splitWs prev.toList
    match ws.get? 0 with
    | none => .error (.shift (.OptionUnwrap "line x coordinate" none none))
    | some xs =>
      match parseDec xs with
      | none => .error (.floatParse (String.mk xs))
      | some x =>
        match ws.get? 1 with
        | none => .error (.shift (.OptionUnwrap "line y coordinate" none none))
        | some ys =>
          match parseDec ys with
          | none => .error (.floatParse (String.mk ys))
          | some y => .ok (x, y)

/-- Release-build coordinate lookup for the captures of line `i`: the
preceding line's index is computed with wrapping `usize` subtraction. -/
def line_coordinate (ls : List String) (i : Nat) : Except GenErr (Dec × Dec) :=
  line_coordinate_at ls (usizeWrapSub1 i)

/-- Tokens contributed by the captures of line `i` (release semantics):
each capture is paired with the coordinate read from the preceding line,
and the first failure aborts with its error, exactly like the `?`
operators of the source. -/
def caps_tokens (ls : List String) (i : Nat) : List String → Except GenErr (List ContentToken)
  | [] => .ok []
  | cap :: caps =>
    match line_coordinate ls i with
    | .error e => .error e
    | .ok xy =>
      match caps_tokens ls i caps with
      | .error e => .error e
      | .ok more => .ok ((cap, xy) :: more)

/-- The token-extraction loop of `parse_page` (release semantics) over the
lines starting at index `i`. -/
def extract_from (ls : List String) : Nat → List String → Except GenErr (List ContentToken)
  | _, [] => .ok []
  | i, line :: rest =>
    match caps_tokens ls i (parenCaptures line) with
    | .error e => .error e
    | .ok toks =>
      match extract_from ls (i + 1) rest with
      | .error e => .error e
      | .ok more => .ok (toks ++ more)

/-- Token extraction of `parse_page` over a page's lines (release
semantics). -/
def extract_tokens (ls : List String) : Except GenErr (List ContentToken) :=
  extract_from ls 0 ls

/-- `parse_page` of `shift_parsing.rs`: extract all tokens, compute the
page offset as the negated minimal x coordinate, and assemble the shift.
Any extraction failure propagates as the function's error. -/
def parse_page (page_stream : List String) (page_number : Nat) (shift_number : String) :
    Except GenErr Shift :=
  match extract_tokens page_stream with
  | .error e => .error e
  | .ok line_elements =>
    let minimal_x := Dec.neg (((minDec? (line_elements.map (fun v => v.2.1)))).getD (0 : Dec))
    match get_line_element line_elements minimal_x page_number shift_number with
    | .error e => .error (.shift e)
    | .ok shift => .ok shift

/-- Outcome type for the debug-build semantics of token extraction:
`panic` models the integer-underflow panic of a debug build. -/
inductive DebugOutcome (α : Type) where
  | panic : DebugOutcome α
  | error : GenErr → DebugOutcome α
  | ok : α → DebugOutcome α
deriving DecidableEq, Repr

/-- Debug-build coordinate lookup: `line_number - 1` is a checked
subtraction and underflow panics before any lookup happens. -/
def line_coordinate_dbg (ls : List String) (i : Nat) : DebugOutcome (Dec × Dec) :=
  match checkedSub i 1 with
  | none => .panic
  | some j =>
    match line_coordinate_at ls j with
    | .error e => .error e
    | .ok xy => .ok xy

/-- Debug-build variant of `caps_tokens`. -/
def caps_tokens_dbg (ls : List String) (i : Nat) :
    List String → DebugOutcome (List ContentToken)
  | [] => .ok []
  | cap :: caps =>
    match line_coordinate_dbg ls i with
    | .panic => .panic
    | .error e => .error e
    | .ok xy =>
      match caps_tokens_dbg ls i caps with
      | .panic => .panic
      | .error e => .error e
      | .ok more => .ok ((cap, xy) :: more)

/-- Debug-build variant of the extraction loop. -/
def extract_from_dbg (ls : List String) : Nat → List String → DebugOutcome (List ContentToken)
  | _, [] => .ok []
  | i, line :: rest =>
    match caps_tokens_dbg ls i (parenCaptures line) with
    | .panic => .panic
    | .error e => .error e
    | .ok toks =>
      match extract_from_dbg ls (i + 1) rest with
      | .panic => .panic
      | .error e => .error e
      | .ok more => .ok (toks ++ more)

/-- Token extraction under debug-build semantics. -/
def extract_tokens_dbg (ls : List String) : DebugOutcome (List ContentToken) :=
  extract_from_dbg ls 0 ls

/-- Is an `Except` value a success? -/
def exceptOk {ε α : Type} : Except ε α → Bool
  | .ok _ => true
  | .error _ => false

/-! ## Association-list maps (the model of `HashMap`)

Lookup returns the first binding of a key; insertion replaces in place;
`extendA` folds insertion over the incoming bindings, which is exactly
`HashMap::extend` (the incoming binding wins on collision).  Hash-map
equality is extensional, i.e. pointwise `lookupA`. -/

def lookupA {K V : Type} [DecidableEq K] (m : List (K × V)) (k : K) : Option V :=
  match m with
  | [] => none
  | (k', v') :: rest => if k' = k then some v' else lookupA rest k

def insertA {K V : Type} [DecidableEq K] (m : List (K × V)) (k : K) (v : V) :
    List (K × V) :=
  match m with
  | [] => [(k, v)]
  | (k', v') :: rest => if k' = k then (k, v) :: rest else (k', v') :: insertA rest k v

def extendA {K V : Type} [DecidableEq K] (m news : List (K × V)) : List (K × V) :=
  news.foldl (fun acc kv => insertA acc kv.1 kv.2) m

/-- The last binding of a key (the binding that survives an `extendA`). -/
def lookupLast {K V : Type} [DecidableEq K] (m : List (K × V)) (k : K) : Option V :=
  match m with
  | [] => none
  | (k', v') :: rest =>
    match lookupLast rest k with
    | some v => some v
    | none => if k' = k then some v' else none

/-! ## Timetable collections and the resolver (src/main.rs) -/

/-- `ShiftData` of `main.rs`.  The source field `shift_prefix` is named
`shiftPfx` here for tooling reasons; it holds the alphabetic part of the
shift identifier. -/
structure ShiftData where
  pages : List Nat
  file_id : Nat
  shiftPfx : String
deriving DecidableEq, Repr

/-- `PdfTimetableCollection`: effective date, `files` map
(file id to source path) and `pages` map (numeric shift id to data). -/
structure PdfTimetableCollection where
  valid_from : Int
  files : List (Nat × String)
  pages : List (String × ShiftData)
deriving DecidableEq, Repr

/-- `PdfTimetableCollection::new()`: the sentinel collection dated ISO
week 2000-W20 Monday, i.e. 15 May 2000. -/
def PdfTimetableCollection.newEmpty : PdfTimetableCollection :=
  ⟨dateCode 2000 5 15, [], []⟩

/-- The loop body of `get_valid_timetables` over the collection files (in
directory order): track the most recent collection not after the lookup
date, push later dates onto `upcoming`, and push every active date onto
`active`. -/
def gvt_loop : List PdfTimetableCollection → Int → PdfTimetableCollection →
    List Int → List Int → PdfTimetableCollection × List Int × List Int
  | [], _, mr, up, act => (mr, up, act)
  | c :: rest, current_date, mr, up, act =>
    let step : PdfTimetableCollection × List Int :=
      if mr.valid_from < c.valid_from ∧ c.valid_from ≤ current_date then (c, up)
      else if current_date < c.valid_from then (mr, up ++ [c.valid_from])
      else (mr, up)
    let act' := if c.valid_from ≤ current_date then act ++ [c.valid_from] else act
    gvt_loop rest current_date step.1 step.2 act'

/-- `get_valid_timetables`: given the loaded collection files and the
effective lookup date, return the active dates sorted descending, the most
recent active collection, and the next timetable change date (the head of
the ascending-sorted upcoming dates). -/
def get_valid_timetables (collections : List PdfTimetableCollection) (current_date : Int) :
    List Int × PdfTimetableCollection × Option Int :=
  let r := gvt_loop collections current_date PdfTimetableCollection.newEmpty [] []
  let active_timetables := (r.2.2.insertionSort (· ≤ ·)).reverse
  let next_timetable := (r.2.1.insertionSort (· ≤ ·)).head?
  (active_timetables, r.1, next_timetable)

/-- The recursion of `find_shift` once no current timetable is given:
`Vec::pop` takes the LAST element of the date list, so the loop is the
structural recursion over the reversed list.  Reading a collection file
from disk is modelled by the `disk` function (`None` covers both a failed
read and corrupt JSON); the alphabetic filter is re-applied on every
recursive call exactly as in the source. -/
def find_shift_go (shift_number : String) (disk : Int → Option PdfTimetableCollection) :
    List Int → Option (PdfTimetableCollection × ShiftData)
  | [] => none
  | d :: rest =>
    let shift_number_no_chars := filterNonAlpha shift_number
    match disk d with
    | none => none
    | some current_timetable =>
      match lookupA current_timetable.pages shift_number_no_chars with
      | some shift => some (current_timetable, shift)
      | none => find_shift_go shift_number_no_chars disk rest

/-- `find_shift` of `main.rs`: check the given most recent timetable
first; on a miss, recurse over the remaining dates via `Vec::pop` (i.e.
from the END of the descending-sorted list). -/
def find_shift (shift_number : String) (valid_timetables : List Int)
    (most_recent_timetable : Option PdfTimetableCollection)
    (disk : Int → Option PdfTimetableCollection) :
    Option (PdfTimetableCollection × ShiftData) :=
  let shift_number_no_chars := filterNonAlpha shift_number
  match most_recent_timetable with
  | some current_timetable =>
    match lookupA current_timetable.pages shift_number_no_chars with
    | some shift => some (current_timetable, shift)
    | none => find_shift_go shift_number_no_chars disk valid_timetables.reverse
  | none => find_shift_go shift_number_no_chars disk valid_timetables.reverse

/-- The merge step of `index_trip_sheets` when a collection file for the
effective date already exists: insert the file binding and extend the
pages map with the freshly built index (incoming entry wins). -/
def merge_collection (c : PdfTimetableCollection) (file_id : Nat) (path : String)
    (index : List (String × ShiftData)) : PdfTimetableCollection :=
  { c with files := insertA c.files file_id path, pages := extendA c.pages index }

/-- The creation step of `index_trip_sheets` when no collection file
exists yet for the effective date. -/
def fresh_collection (valid_from : Int) (file_id : Nat) (path : String)
    (index : List (String × ShiftData)) : PdfTimetableCollection :=
  ⟨valid_from, [(file_id, path)], index⟩

/-- The shared resolver state of `main.rs`: the three global `RwLock`s. -/
structure Globals where
  upcoming_timetable_date : Option Int
  most_recent_valid_timetable : PdfTimetableCollection
  valid_timetables : List Int
deriving DecidableEq, Repr

/-- The state-relevant skeleton of the `get_shift` handler: reads of the
globals into locals, the early `REFRESH`/`INDEX` returns, the
caller-supplied-date resolution into locals only, and the
wall-clock-triggered permanent reload that writes the globals.  Returns
the final globals together with the request-local
`(valid_timetables, most_recent, next_date)` resolution. -/
def get_shift_resolution (g : Globals) (shift_number : String)
    (custom_date_option : Option Int) (current_date : Int)
    (collections : List PdfTimetableCollection) :
    Globals × (List Int × PdfTimetableCollection × Option Int) :=
  let normalized_shift_number := upperStr (replaceStr shift_number " " "")
  let locals0 : List Int × PdfTimetableCollection × Option Int :=
    (g.valid_timetables, g.most_recent_valid_timetable, g.upcoming_timetable_date)
  if normalized_shift_number = "REFRESH" then (g, locals0)
  else if normalized_shift_number = "INDEX" then (g, locals0)
  else
    let locals1 : List Int × PdfTimetableCollection × Option Int :=
      match custom_date_option with
      | some custom_date =>
        let r := get_valid_timetables collections custom_date
        (r.1, r.2.1, locals0.2.2)
      | none => locals0
    match g.upcoming_timetable_date with
    | some new_timetable_date =>
      if new_timetable_date ≤ current_date ∧ custom_date_option = none then
        let r := get_valid_timetables collections current_date
        (⟨r.2.2, r.2.1, r.1⟩, r)
      else (g, locals1)
    | none => (g, locals1)

/-- The prefix check of `get_shift` after a successful lookup: reject
exactly when the caller supplied a non-empty alphabetic prefix that
differs from the stored one (the supplied prefix is taken from the RAW
path parameter). -/
def get_shift_prefix_check (shift_number : String) (shift_data : ShiftData) : Bool :=
  let p := alphaOf shift_number
  (decide (p ≠ "")) && (decide (p ≠ shift_data.shiftPfx))

/-! ## Concrete instances used by the claim theorems and witnesses -/

def sd2020 : ShiftData := ⟨[3], 0, "G"⟩
def sd2022 : ShiftData := ⟨[5], 1, "G"⟩
def sd2024 : ShiftData := ⟨[9], 2, "G"⟩

/-- A collection dated 01-01-2020 listing shift "100". -/
def coll2020 : PdfTimetableCollection :=
  ⟨dateCode 2020 1 1, [(0, "2020.pdf")], [("100", sd2020)]⟩

/-- A collection dated 01-01-2022 also listing shift "100". -/
def coll2022 : PdfTimetableCollection :=
  ⟨dateCode 2022 1 1, [(1, "2022.pdf")], [("100", sd2022)]⟩

/-- A collection dated 01-01-2024 not listing shift "100". -/
def coll2024 : PdfTimetableCollection :=
  ⟨dateCode 2024 1 1, [(2, "2024.pdf")], [("200", sd2024)]⟩

/-- The on-disk collection files for the three collections above. -/
def disk3 : Int → Option PdfTimetableCollection := fun d =>
  if d = dateCode 2020 1 1 then some coll2020
  else if d = dateCode 2022 1 1 then some coll2022
  else if d = dateCode 2024 1 1 then some coll2024
  else none

/-- A row whose only populated cell is the cycle ("omloop") column. -/
def c4row : RowState :=
  ⟨none, some "7", none, none, none, none, none, [], dateCode 2025 6 29, .Unknown,
    "7001", ""⟩

/-- The job built from `c4row`'s cells. -/
def c4job : ShiftJob := ⟨.Unknown, none, none, none, none, some 7, none⟩

/-- A row whose only populated cell is the line/duty column, holding
"Pauze". -/
def c4rowPauze : RowState :=
  ⟨some "Pauze", none, none, none, none, none, none, [], dateCode 2025 6 29, .Unknown,
    "7001", ""⟩

def pauzeJob : ShiftJob := ⟨.Pauze, none, none, none, none, none, none⟩

/-- Page tokens whose start-time cell is malformed, followed by a token on
another row (triggering the finalize). -/
def c5items : List ContentToken :=
  [("2x:00", (270 : Dec), (400 : Dec)), ("w", (270 : Dec), (300 : Dec))]

/-- Two tokens lying on one shared row (equal y coordinates). -/
def c6items : List ContentToken :=
  [("12", (10 : Dec), (400 : Dec)), ("410", (270 : Dec), (400 : Dec))]

/-! ## Helper lemmas -/

theorem dec_beq_refl (a : Dec) : Dec.beq a a = true := by simp [Dec.beq]

theorem dec_beq_symm {a b : Dec} (h : Dec.beq a b = true) : Dec.beq b a = true := by
  simp only [Dec.beq, decide_eq_true_eq] at *
  exact h.symm

theorem dec_beq_trans {a b c : Dec} (h1 : Dec.beq a b = true) (h2 : Dec.beq b c = true) :
    Dec.beq a c = true := by
  simp only [Dec.beq, decide_eq_true_eq] at *
  have hb : ((10 : Int) ^ b.exp) ≠ 0 := pow_ne_zero _ (by norm_num)
  have key : (a.num * (10 : Int) ^ c.exp) * (10 : Int) ^ b.exp =
      (c.num * (10 : Int) ^ a.exp) * (10 : Int) ^ b.exp := by
    calc (a.num * (10 : Int) ^ c.exp) * (10 : Int) ^ b.exp
        = (a.num * (10 : Int) ^ b.exp) * (10 : Int) ^ c.exp := by ring
      _ = (b.num * (10 : Int) ^ a.exp) * (10 : Int) ^ c.exp := by rw [h1]
      _ = (b.num * (10 : Int) ^ c.exp) * (10 : Int) ^ a.exp := by ring
      _ = (c.num * (10 : Int) ^ b.exp) * (10 : Int) ^ a.exp := by rw [h2]
      _ = (c.num * (10 : Int) ^ a.exp) * (10 : Int) ^ b.exp := by ring
  exact mul_right_cancel₀ hb key

theorem identify_metadata_jobs (st : RowState) (m : String) (y x : Dec) (st' : RowState)
    (h : identify_metadata st m y x = some st') : st'.jobs = st.jobs := by
  unfold identify_metadata at h
  repeat' split at h
  all_goals simp_all
  all_goals (subst h; rfl)

theorem gli_route_jobs (st1 : RowState) (y x off : Dec) (pn : Nat) (line : String) :
    ((gli_route st1 y x off pn line).1).jobs = st1.jobs := by
  unfold gli_route
  split_ifs
  case pos =>
    cases him : identify_metadata st1 line y x with
    | none => simp
    | some st2 => simpa using identify_metadata_jobs st1 line y x st2 him
  all_goals rfl

theorem gli_no_finalize (st : RowState) (last_y y x off : Dec) (pn : Nat) (line : String)
    (h : Dec.beq last_y y = true) :
    get_line_information st last_y y x off pn line = gli_route st y x off pn line := by
  simp [get_line_information, h]

theorem gli_finalize_ok (st : RowState) (last_y y x off : Dec) (pn : Nat) (line : String)
    (j : ShiftJob) (h : Dec.beq last_y y = false)
    (hj : job_creator st.lijn st.omloop st.rit st.start st.eind st.van st.naar = .ok j) :
    get_line_information st last_y y x off pn line =
      gli_route { st with
          jobs := if !j.empty then st.jobs ++ [j] else st.jobs,
          lijn := none, omloop := none, rit := none, start := none,
          van := none, naar := none, eind := none } y x off pn line := by
  simp [get_line_information, h, hj]

theorem gli_finalize_err (st : RowState) (last_y y x off : Dec) (pn : Nat) (line : String)
    (e : ShiftParseError) (h : Dec.beq last_y y = false)
    (he : job_creator st.lijn st.omloop st.rit st.start st.eind st.van st.naar = .error e) :
    get_line_information st last_y y x off pn line = (st, some e) := by
  simp [get_line_information, h, he]

/-! ## Claim theorems -/

/-- C1: the claim says `find_shift` examines the active collections newest
first and returns the entry from the active collection with the greatest
`valid_from` containing the shift id.  The code violates this: after the
most recent collection misses, `Vec::pop` takes dates from the END of the
descending-sorted active list, i.e. oldest first.  With three collections
(2020 and 2022 both listing "100", 2024 not listing it) and lookup date
2024-06-01, the code returns the 2020 collection's data although the 2022
collection also lists "100" and is newer (and active). -/
theorem find_shift_prefers_oldest_over_newer_fallback :
    find_shift "100"
      (get_valid_timetables [coll2020, coll2022, coll2024] (dateCode 2024 6 1)).1
      (some (get_valid_timetables [coll2020, coll2022, coll2024] (dateCode 2024 6 1)).2.1)
      disk3 = some (coll2020, sd2020)
    ∧ lookupA coll2022.pages "100" = some sd2022
    ∧ coll2020.valid_from < coll2022.valid_from
    ∧ coll2022.valid_from ≤ dateCode 2024 6 1 := by decide

/-- C2 counterexample: the claim exempts the `{"GM","G"}` pair from the
prefix-mismatch rejection, and says a request "GM12" matches a stored
entry with prefix "G".  The code has no such alias: "GM12" is rejected
against a stored "G" exactly like "X12" is, while "G12" is accepted. -/
theorem gm_alias_request_rejected :
    get_shift_prefix_check "GM12" ⟨[12], 0, "G"⟩ = true
    ∧ get_shift_prefix_check "X12" ⟨[12], 0, "G"⟩ = true
    ∧ get_shift_prefix_check "G12" ⟨[12], 0, "G"⟩ = false := by decide

/-- C2 amended: a successful lookup is rejected as a prefix mismatch if
and only if the caller-supplied alphabetic prefix is non-empty and differs
from the stored prefix — with no alias exception of any kind. -/
theorem prefix_mismatch_iff_nonempty_and_differs (shift_number : String)
    (shift_data : ShiftData) :
    get_shift_prefix_check shift_number shift_data = true ↔
      (alphaOf shift_number ≠ "" ∧ alphaOf shift_number ≠ shift_data.shiftPfx) := by
  simp [get_shift_prefix_check]

/-- C4 counterexample: the claim says a finalized job is discarded only
when ALL optional fields (including cycle and trip) are absent.  The code
discards a job whose only content is a cycle number: `ShiftJob::empty`
does not examine `omloop`/`rit`, so a row holding only the cycle cell "7"
finalizes to a job with `omloop = some 7` that is dropped. -/
theorem cycle_only_job_silently_discarded :
    ((get_line_information c4row (100 : Dec) (200 : Dec) (100 : Dec) (0 : Dec) 1 "x").1).jobs
      = []
    ∧ job_creator c4row.lijn c4row.omloop c4row.rit c4row.start c4row.eind c4row.van
        c4row.naar = .ok c4job
    ∧ c4job.omloop = some 7
    ∧ ShiftJob.empty c4job = true := by decide

/-- C4 amended: a finalized job is discarded if and only if its job type
is Unknown and its start, end, start_location and end_location fields are
all absent; the cycle (omloop) and trip (rit) fields are not examined.
Any other finalized job is appended to the job sequence. -/
theorem job_discarded_iff_unknown_and_core_fields_absent :
    (∀ j : ShiftJob, ShiftJob.empty j = true ↔
      (j.job_type = JobType.Unknown ∧ j.start = none ∧ j.endTime = none ∧
        j.start_location = none ∧ j.end_location = none))
    ∧ ∀ (st : RowState) (last_y current_y current_x offset : Dec) (pn : Nat)
        (line : String) (j : ShiftJob),
        Dec.beq last_y current_y = false →
        job_creator st.lijn st.omloop st.rit st.start st.eind st.van st.naar = .ok j →
        ((get_line_information st last_y current_y current_x offset pn line).1).jobs =
          (if ShiftJob.empty j then st.jobs else st.jobs ++ [j]) := by
  constructor
  · intro j
    simp [ShiftJob.empty, Option.isNone_iff_eq_none, and_assoc]
  · intro st ly y x off pn line j h hj
    rw [gli_finalize_ok st ly y x off pn line j h hj, gli_route_jobs]
    cases he : ShiftJob.empty j <;> simp [he]

/-- Witness for the amended C4 theorem: a row holding only "Pauze" in the
line/duty cell is finalized into a non-empty job and appended. -/
theorem job_discarded_iff_witness :
    ((get_line_information c4rowPauze (100 : Dec) (200 : Dec) (100 : Dec) (0 : Dec) 1
      "x").1).jobs = (if ShiftJob.empty pauzeJob then c4rowPauze.jobs
        else c4rowPauze.jobs ++ [pauzeJob]) :=
  job_discarded_iff_unknown_and_core_fields_absent.2 c4rowPauze (100 : Dec) (200 : Dec)
    (100 : Dec) (0 : Dec) 1 "x" pauzeJob (by decide) (by decide)

/-- C10: in debug builds the coordinate lookup's `line_number - 1` is a
checked subtraction; for a parenthesized literal on the FIRST line it
underflows (`0 - 1`), so extraction panics instead of reaching the
structured "line coordinates" missing-coordinate error. -/
theorem first_line_paren_token_panics_in_debug (l0 : String) (rest : List String)
    (h : parenCaptures l0 ≠ []) :
    extract_tokens_dbg (l0 :: rest) = DebugOutcome.panic ∧ checkedSub 0 1 = none := by
  obtain ⟨c, cs, hc⟩ := List.exists_cons_of_ne_nil h
  constructor
  · simp [extract_tokens_dbg, extract_from_dbg, hc, caps_tokens_dbg, line_coordinate_dbg,
      checkedSub]
  · rfl

/-- Witness for C10: a page whose first (and only) line is "(hello)". -/
theorem first_line_paren_token_panics_witness :
    parenCaptures "(hello)" ≠ [] ∧ extract_tokens_dbg ["(hello)"] = DebugOutcome.panic :=
  ⟨by decide, (first_line_paren_token_panics_in_debug "(hello)" [] (by decide)).1⟩

theorem gle_loop_jobs_const (offset : Dec) (pn : Nat) (y : Dec) :
    ∀ (items : List ContentToken), (∀ it ∈ items, Dec.beq it.2.2 y = true) →
      ∀ (st : RowState) (last_y : Dec), Dec.beq last_y y = true →
      ∀ (errs : List ShiftParseError),
      ((gle_loop offset pn items st last_y errs).1).jobs = st.jobs := by
  intro items
  induction items with
  | nil => intro _ st ly _ errs; rfl
  | cons it rest ih =>
    intro hall st ly hly errs
    have hit : Dec.beq it.2.2 y = true := hall it (by simp)
    have hli : Dec.beq ly it.2.2 = true := dec_beq_trans hly (dec_beq_symm hit)
    have hr := gli_no_finalize st ly it.2.2 it.2.1 offset pn it.1 hli
    simp only [gle_loop, hr]
    rw [ih (fun x hx => hall x (by simp [hx])) _ _ hit]
    exact gli_route_jobs st it.2.2 it.2.1 offset pn it.1

/-- C6: a row is finalized into a job only when a token's y coordinate
differs from the previous token's; in particular a page whose tokens all
share one y coordinate (so the trailing accumulated row never sees a
y change) produces a shift with no jobs at all — the trailing row is
dropped, not auto-flushed. -/
theorem row_finalized_only_on_y_change :
    (∀ (st : RowState) (last_y current_y current_x offset : Dec) (pn : Nat) (line : String),
       Dec.beq last_y current_y = true →
       ((get_line_information st last_y current_y current_x offset pn line).1).jobs = st.jobs)
    ∧ ∀ (first : ContentToken) (rest : List ContentToken) (offset : Dec) (pn : Nat)
        (sn : String),
        (∀ it ∈ first :: rest, Dec.beq it.2.2 first.2.2 = true) →
        ∃ s, get_line_element (first :: rest) offset pn sn = .ok s ∧ s.job = [] := by
  constructor
  · intro st ly y x off pn line h
    rw [gli_no_finalize st ly y x off pn line h]
    exact gli_route_jobs st y x off pn line
  · intro first rest off pn sn hall
    simp only [get_line_element]
    refine ⟨_, rfl, ?_⟩
    show ((gle_loop off pn (first :: rest) _ first.2.2 []).1).jobs = []
    exact gle_loop_jobs_const off pn first.2.2 (first :: rest) hall _ first.2.2
      (dec_beq_refl _) []

/-- Witness for C6: two tokens sharing y = 400, one of which fills the
line cell and one the start cell, yield a shift with an empty job list. -/
theorem row_finalized_only_on_y_change_witness :
    ∃ s, get_line_element c6items (0 : Dec) 3 "X" = .ok s ∧ s.job = [] := by
  have h := row_finalized_only_on_y_change.2 ("12", (10 : Dec), (400 : Dec))
    [("410", (270 : Dec), (400 : Dec))] (0 : Dec) 3 "X" (by decide)
  simpa [c6items] using h

theorem strMk_toList (cs : List Char) : (String.mk cs).toList = cs := rfl

theorem parseRustUint_all_digits {cs : List Char} {mx v : Nat}
    (h : parseRustUint cs mx = some v) :
    (if cs.head? = some '+' then cs.tail else cs).all Char.isDigit = true := by
  by_cases hh : cs.head? = some '+'
  · simp only [parseRustUint, if_pos hh] at h
    rw [if_pos hh]
    by_cases hcond : cs.tail ≠ [] ∧ cs.tail.all Char.isDigit = true
    · exact hcond.2
    · rw [if_neg hcond] at h
      exact absurd h (by simp)
  · simp only [parseRustUint, if_neg hh] at h
    rw [if_neg hh]
    by_cases hcond : cs ≠ [] ∧ cs.all Char.isDigit = true
    · exact hcond.2
    · rw [if_neg hcond] at h
      exact absurd h (by simp)

theorem parseRustUint_no_colon {cs : List Char} {mx v : Nat}
    (h : parseRustUint cs mx = some v) : ':' ∉ cs := by
  intro hmem
  have hall := parseRustUint_all_digits h
  by_cases hh : cs.head? = some '+'
  · rw [if_pos hh] at hall
    cases cs with
    | nil => simp at hmem
    | cons c0 r =>
      have hc0 : c0 = '+' := by simpa using hh
      simp only [List.tail_cons] at hall
      rcases List.mem_cons.mp hmem with h1 | h2
      · rw [hc0] at h1; exact absurd h1 (by decide)
      · exact absurd (List.all_eq_true.mp hall _ h2) (by decide)
  · rw [if_neg hh] at hall
    exact absurd (List.all_eq_true.mp hall _ hmem) (by decide)

theorem splitOnChar_not_mem (sep : Char) : ∀ cs : List Char, sep ∉ cs →
    splitOnChar sep cs = [cs] := by
  intro cs
  induction cs with
  | nil => intro _; rfl
  | cons c rest ih =>
    intro h
    have hcs : ¬ c = sep := fun he => h (by simp [he])
    have hrest : sep ∉ rest := fun hr => h (by simp [hr])
    simp only [splitOnChar, if_neg hcs, ih hrest, consHead]

theorem splitOnChar_append (sep : Char) : ∀ pre post : List Char, sep ∉ pre →
    splitOnChar sep (pre ++ sep :: post) = pre :: splitOnChar sep post := by
  intro pre
  induction pre with
  | nil => intro post _; simp [splitOnChar]
  | cons c pre' ih =>
    intro post h
    have hcs : ¬ c = sep := fun he => h (by simp [he])
    have hpre : sep ∉ pre' := fun hr => h (by simp [hr])
    simp only [List.cons_append, splitOnChar, if_neg hcs, List.append_eq, ih post hpre,
      consHead]

/-- C5: for a well-formed `H:M` time cell the hour is reduced by 24 when
it is 24 or more before the time of day is constructed (`24:00` maps to
00:00, `25:30` to 01:30, `23:59` is unchanged), and a missing or
non-numeric hour or minute component is a hard `ShiftParseError`; such an
error is collected into the owning shift's `parse_error` list while the
page parse still succeeds. -/
theorem time_parse_rollover_and_hard_errors :
    (∀ (hcs mcs : List Char) (h m : Nat) (jn : String),
        parseRustUint hcs u8max = some h → parseRustUint mcs u8max = some m →
        to_iso8601 (String.mk (hcs ++ ':' :: mcs)) jn =
          .ok (Time.from_hms (if 24 ≤ h then h - 24 else h) m 0))
    ∧ to_iso8601 "24:00" "Start time" = .ok (some ⟨0, 0⟩)
    ∧ to_iso8601 "25:30" "Start time" = .ok (some ⟨1, 30⟩)
    ∧ to_iso8601 "23:59" "Start time" = .ok (some ⟨23, 59⟩)
    ∧ (∀ (cs : List Char) (jn : String), ':' ∉ cs →
        ∃ e, to_iso8601 (String.mk cs) jn = .error e)
    ∧ (∀ (hcs mcs : List Char) (jn : String), ':' ∉ hcs →
        parseRustUint hcs u8max = none →
        to_iso8601 (String.mk (hcs ++ ':' :: mcs)) jn =
          .error (.GenericShiftError 1 parseIntErrorMessage
            (some (String.mk (hcs ++ ':' :: mcs)))))
    ∧ (∀ (hcs mcs : List Char) (h : Nat) (jn : String), ':' ∉ mcs →
        parseRustUint hcs u8max = some h → parseRustUint mcs u8max = none →
        to_iso8601 (String.mk (hcs ++ ':' :: mcs)) jn =
          .error (.GenericShiftError 2 parseIntErrorMessage
            (some (String.mk (hcs ++ ':' :: mcs)))))
    ∧ get_line_element c5items (0 : Dec) 3 "X" = .ok ⟨"X", .Unknown, "", none, [],
        dateCode 2025 6 29, some [.GenericShiftError 1 parseIntErrorMessage (some "2x:00")]⟩ := by
  refine ⟨?_, by decide, by decide, by decide, ?_, ?_, ?_, by decide⟩
  · intro hcs mcs h m jn hh hm
    have hnc : ':' ∉ hcs := parseRustUint_no_colon hh
    have mnc : ':' ∉ mcs := parseRustUint_no_colon hm
    simp [to_iso8601, strMk_toList, splitOnChar_append ':' hcs mcs hnc,
      splitOnChar_not_mem ':' mcs mnc, hh, hm]
  · intro cs jn hnc
    cases hp : parseRustUint cs u8max with
    | none =>
      exact ⟨.GenericShiftError 1 parseIntErrorMessage (some (String.mk cs)),
        by simp [to_iso8601, strMk_toList, splitOnChar_not_mem ':' cs hnc, hp]⟩
    | some hv =>
      exact ⟨.OptionUnwrap "Time minute" (some jn) (some (String.mk cs)),
        by simp [to_iso8601, strMk_toList, splitOnChar_not_mem ':' cs hnc, hp]⟩
  · intro hcs mcs jn hnc hp
    simp [to_iso8601, strMk_toList, splitOnChar_append ':' hcs mcs hnc, hp]
  · intro hcs mcs h jn mnc hh hm
    have hnc : ':' ∉ hcs := parseRustUint_no_colon hh
    simp [to_iso8601, strMk_toList, splitOnChar_append ':' hcs mcs hnc,
      splitOnChar_not_mem ':' mcs mnc, hh, hm]

/-- Witness for C5: "25:30" parses with the hour reduced by 24. -/
theorem time_parse_rollover_witness :
    to_iso8601 (String.mk (['2', '5'] ++ ':' :: ['3', '0'])) "Start time" =
      .ok (Time.from_hms (if 24 ≤ 25 then 25 - 24 else 25) 30 0) :=
  time_parse_rollover_and_hard_errors.1 ['2', '5'] ['3', '0'] 25 30 "Start time"
    (by decide) (by decide)

/-- C9: handling a request that carries a caller-supplied lookup date
leaves the three shared globals unchanged; the resolution for the supplied
date is computed only into the request-local variables (which, outside the
REFRESH/INDEX command paths, hold exactly the resolution of the supplied
date, with the global upcoming date left in its local copy). -/
theorem custom_date_resolution_is_local (g : Globals) (shift_number : String)
    (custom_date_option : Option Int) (d current_date : Int)
    (collections : List PdfTimetableCollection)
    (h : custom_date_option = some d) :
    (get_shift_resolution g shift_number custom_date_option current_date collections).1 = g
    ∧ (upperStr (replaceStr shift_number " " "") ≠ "REFRESH" →
       upperStr (replaceStr shift_number " " "") ≠ "INDEX" →
       (get_shift_resolution g shift_number custom_date_option current_date
           collections).2 =
         ((get_valid_timetables collections d).1,
          (get_valid_timetables collections d).2.1, g.upcoming_timetable_date)) := by
  subst h
  constructor
  · simp only [get_shift_resolution]
    split_ifs with h1 h2
    · rfl
    · rfl
    · cases hup : g.upcoming_timetable_date with
      | none => simp [hup]
      | some nd => simp [hup]
  · intro hr hi
    simp only [get_shift_resolution, if_neg hr, if_neg hi]
    cases hup : g.upcoming_timetable_date with
    | none => simp [hup]
    | some nd => simp [hup]

/-- Witness for C9: a concrete request with custom date 01-06-2020 leaves
concrete globals untouched. -/
theorem custom_date_resolution_witness :
    (get_shift_resolution ⟨some (dateCode 2024 1 1), coll2022, [dateCode 2022 1 1]⟩
      "7001" (some (dateCode 2020 6 1)) (dateCode 2024 6 1) [coll2020]).1 =
      ⟨some (dateCode 2024 1 1), coll2022, [dateCode 2022 1 1]⟩ :=
  (custom_date_resolution_is_local ⟨some (dateCode 2024 1 1), coll2022, [dateCode 2022 1 1]⟩
    "7001" (some (dateCode 2020 6 1)) (dateCode 2020 6 1) (dateCode 2024 6 1) [coll2020]
    rfl).1

theorem lookupA_insertA {K V : Type} [DecidableEq K] :
    ∀ (m : List (K × V)) (k : K) (v : V) (k' : K),
      lookupA (insertA m k v) k' = if k = k' then some v else lookupA m k' := by
  intro m k v
  induction m with
  | nil => intro k'; simp [insertA, lookupA]
  | cons kv rest ih =>
    intro k'
    obtain ⟨k0, v0⟩ := kv
    by_cases h0 : k0 = k
    · subst h0
      simp only [insertA, if_pos rfl]
      by_cases hk : k0 = k' <;> simp [lookupA, hk]
    · simp only [insertA, if_neg h0]
      by_cases hk : k0 = k'
      · subst hk
        have hkk : ¬ k = k0 := fun he => h0 he.symm
        simp [lookupA, hkk]
      · simp [lookupA, hk, ih k']

theorem lookupA_extendA {K V : Type} [DecidableEq K] :
    ∀ (news m : List (K × V)) (k : K),
      lookupA (extendA m news) k =
        match lookupLast news k with
        | some v => some v
        | none => lookupA m k := by
  intro news
  induction news with
  | nil => intro m k; rfl
  | cons kv rest ih =>
    intro m k
    obtain ⟨k1, v1⟩ := kv
    have he : extendA m ((k1, v1) :: rest) = extendA (insertA m k1 v1) rest := rfl
    rw [he, ih]
    cases hl : lookupLast rest k with
    | some v => simp [lookupLast, hl]
    | none =>
      simp only [lookupLast, hl]
      by_cases hk : k1 = k
      · simp [hk, lookupA_insertA]
      · simp [hk, lookupA_insertA]

theorem lookupA_eq_none {K V : Type} [DecidableEq K] :
    ∀ (m : List (K × V)) (k : K), k ∉ m.map Prod.fst → lookupA m k = none := by
  intro m
  induction m with
  | nil => intro k _; rfl
  | cons kv rest ih =>
    intro k hk
    obtain ⟨k0, v0⟩ := kv
    have h1 : ¬ k0 = k := fun he => hk (by simp [he])
    have h2 : k ∉ rest.map Prod.fst := fun hr => hk (by simp [hr])
    simp [lookupA, h1, ih k h2]

theorem lookupLast_eq_lookupA {K V : Type} [DecidableEq K] :
    ∀ (m : List (K × V)), (m.map Prod.fst).Nodup → ∀ k, lookupLast m k = lookupA m k := by
  intro m
  induction m with
  | nil => intro _ k; rfl
  | cons kv rest ih =>
    intro hnd k
    obtain ⟨k0, v0⟩ := kv
    simp only [List.map_cons, List.nodup_cons] at hnd
    by_cases hk : k0 = k
    · subst hk
      have : lookupA rest k0 = none :=
        lookupA_eq_none rest k0 (by simpa using hnd.1)
      rw [lookupA, if_pos rfl, lookupLast, ih hnd.2 k0, this]
      simp
    · rw [lookupA, if_neg hk, lookupLast, ih hnd.2 k, if_neg hk]
      cases lookupA rest k <;> rfl

/-- C8: merging the same source file's (file id, source path, page index)
into a collection a second time leaves the pages and files maps unchanged
(extensionally — which is hash-map equality), both over an arbitrary
existing collection and over the collection freshly created by the first
indexing run into an empty store. -/
theorem merge_collection_idempotent (c : PdfTimetableCollection) (file_id : Nat)
    (path : String) (index : List (String × ShiftData)) (valid_from : Int)
    (hnodup : (index.map Prod.fst).Nodup) :
    (∀ k, lookupA (merge_collection (merge_collection c file_id path index) file_id path
        index).pages k = lookupA (merge_collection c file_id path index).pages k)
    ∧ (∀ fk, lookupA (merge_collection (merge_collection c file_id path index) file_id
        path index).files fk = lookupA (merge_collection c file_id path index).files fk)
    ∧ (∀ k, lookupA (merge_collection (fresh_collection valid_from file_id path index)
        file_id path index).pages k =
        lookupA (fresh_collection valid_from file_id path index).pages k)
    ∧ (∀ fk, lookupA (merge_collection (fresh_collection valid_from file_id path index)
        file_id path index).files fk =
        lookupA (fresh_collection valid_from file_id path index).files fk) := by
  refine ⟨?_, ?_, ?_, ?_⟩
  · intro k
    show lookupA (extendA (extendA c.pages index) index) k =
      lookupA (extendA c.pages index) k
    rw [lookupA_extendA, lookupA_extendA]
    cases hl : lookupLast index k <;> simp [hl]
  · intro fk
    show lookupA (insertA (insertA c.files file_id path) file_id path) fk =
      lookupA (insertA c.files file_id path) fk
    by_cases h : file_id = fk <;> simp [lookupA_insertA, h]
  · intro k
    show lookupA (extendA index index) k = lookupA index k
    rw [lookupA_extendA, lookupLast_eq_lookupA index hnodup]
    cases hl : lookupA index k <;> simp [hl]
  · intro fk
    show lookupA (insertA [(file_id, path)] file_id path) fk =
      lookupA [(file_id, path)] fk
    simp [insertA]

/-- Witness for C8: re-merging the 2020 source file into its own freshly
indexed collection leaves the "100" page entry unchanged. -/
theorem merge_collection_idempotent_witness :
    lookupA (merge_collection (merge_collection coll2020 0 "2020.pdf" [("100", sd2020)]) 0
      "2020.pdf" [("100", sd2020)]).pages "100" =
      lookupA (merge_collection coll2020 0 "2020.pdf" [("100", sd2020)]).pages "100" :=
  (merge_collection_idempotent coll2020 0 "2020.pdf" [("100", sd2020)]
    (dateCode 2020 1 1) (by decide)).1 "100"

/-- C3 counterexample: the claim says a parenthesized-literal match whose
preceding line does not parse as two numbers yields a structured error
recorded in the Shift's parse_errors while the page parse continues.  In
the code the `?` operator propagates the error out of `parse_page`: for
the page whose lines are ["42", "(hello)"] the whole page parse aborts
with the structured error instead of producing a Shift. -/
theorem parse_page_aborts_on_bad_coordinate_line :
    parse_page ["42", "(hello)"] 1 "100" =
      .error (.shift (.OptionUnwrap "line y coordinate" none none)) := by decide

theorem extract_from_ok_coords (ls : List String) :
    ∀ (rest : List String) (base : Nat) (toks : List ContentToken),
      extract_from ls base rest = .ok toks →
      ∀ (j : Nat) (line : String), rest.get? j = some line → parenCaptures line ≠ [] →
        exceptOk (line_coordinate ls (base + j)) = true := by
  intro rest
  induction rest with
  | nil => intro base toks _ j line hj; simp at hj
  | cons l r ih =>
    intro base toks hok j line hj hcaps
    simp only [extract_from] at hok
    cases hct : caps_tokens ls base (parenCaptures l) with
    | error e => rw [hct] at hok; exact absurd hok (by simp)
    | ok tk =>
      rw [hct] at hok
      cases her : extract_from ls (base + 1) r with
      | error e => rw [her] at hok; exact absurd hok (by simp)
      | ok more =>
        cases j with
        | zero =>
          have hline : l = line := by simpa using hj
          subst hline
          obtain ⟨c, cs, hcc⟩ := List.exists_cons_of_ne_nil hcaps
          rw [hcc] at hct
          simp only [caps_tokens] at hct
          cases hlc : line_coordinate ls base with
          | error e => rw [hlc] at hct; exact absurd hct (by simp)
          | ok xy =>
            rw [Nat.add_zero]
            simp [hlc, exceptOk]
        | succ j' =>
          have : base + (j' + 1) = (base + 1) + j' := by omega
          rw [this]
          exact ih (base + 1) more her j' line (by simpa using hj) hcaps

/-- C3 amended: a parenthesized-literal match with no preceding
coordinate line, or whose preceding line does not parse as two numbers,
aborts the WHOLE page parse with that structured error (no Shift is
produced); only job-level failures during row assembly are recorded into
the Shift's parse_errors, and those never abort the page — the row
assembler returns a Shift for every non-empty token list. -/
theorem token_coordinate_failure_aborts_page :
    (∀ (ls : List String) (pn : Nat) (sn : String) (i : Nat) (line : String),
        ls.get? i = some line → parenCaptures line ≠ [] →
        exceptOk (line_coordinate ls i) = false →
        exceptOk (parse_page ls pn sn) = false)
    ∧ ∀ (items : List ContentToken) (off : Dec) (pn : Nat) (sn : String),
        items ≠ [] → ∃ s, get_line_element items off pn sn = .ok s := by
  constructor
  · intro ls pn sn i line hi hcaps hbad
    cases hpp : parse_page ls pn sn with
    | error e => simp [exceptOk]
    | ok s =>
      exfalso
      rw [parse_page] at hpp
      cases hext : extract_tokens ls with
      | error e => rw [hext] at hpp; exact absurd hpp (by simp)
      | ok toks =>
        have := extract_from_ok_coords ls ls 0 toks hext i line hi hcaps
        rw [Nat.zero_add] at this
        rw [this] at hbad
        exact absurd hbad (by simp)
  · intro items off pn sn h
    cases items with
    | nil => exact absurd rfl h
    | cons f r => exact ⟨_, rfl⟩

/-- Witness for the amended C3 theorem: the concrete bad page aborts and a
concrete non-empty token list assembles into a Shift. -/
theorem token_coordinate_failure_witness :
    exceptOk (parse_page ["42", "(hello)"] 1 "100") = false
    ∧ ∃ s, get_line_element [("a", (1 : Dec), (2 : Dec))] (0 : Dec) 1 "7" = .ok s :=
  ⟨token_coordinate_failure_aborts_page.1 ["42", "(hello)"] 1 "100" 1 "(hello)"
      (by decide) (by decide) (by decide),
   token_coordinate_failure_aborts_page.2 [("a", (1 : Dec), (2 : Dec))] (0 : Dec) 1 "7"
      (by decide)⟩

theorem gvt_loop_act_mem :
    ∀ (cols : List PdfTimetableCollection) (D : Int) (mr : PdfTimetableCollection)
      (up act : List Int) (d : Int),
      d ∈ (gvt_loop cols D mr up act).2.2 ↔
        (d ∈ act ∨ ∃ c ∈ cols, c.valid_from = d ∧ c.valid_from ≤ D) := by
  intro cols
  induction cols with
  | nil => intro D mr up act d; simp [gvt_loop]
  | cons c rest ih =>
    intro D mr up act d
    simp only [gvt_loop]
    rw [ih]
    by_cases hc : c.valid_from ≤ D
    · simp only [if_pos hc, List.mem_append, List.mem_cons, List.not_mem_nil, or_false]
      constructor
      · rintro (((hd | hd) | ⟨c', hc', hv, hle⟩))
        · exact Or.inl hd
        · exact Or.inr ⟨c, Or.inl rfl, hd.symm, hc⟩
        · exact Or.inr ⟨c', Or.inr hc', hv, hle⟩
      · rintro (hd | ⟨c', (rfl | hc'), hv, hle⟩)
        · exact Or.inl (Or.inl hd)
        · exact Or.inl (Or.inr hv.symm)
        · exact Or.inr ⟨c', hc', hv, hle⟩
    · simp only [if_neg hc, List.mem_cons]
      constructor
      · rintro (hd | ⟨c', hc', hv, hle⟩)
        · exact Or.inl hd
        · exact Or.inr ⟨c', Or.inr hc', hv, hle⟩
      · rintro (hd | ⟨c', (rfl | hc'), hv, hle⟩)
        · exact Or.inl hd
        · exact absurd (hv ▸ hle) hc
        · exact Or.inr ⟨c', hc', hv, hle⟩

theorem gvt_loop_up_mem :
    ∀ (cols : List PdfTimetableCollection) (D : Int) (mr : PdfTimetableCollection)
      (up act : List Int) (d : Int),
      d ∈ (gvt_loop cols D mr up act).2.1 ↔
        (d ∈ up ∨ ∃ c ∈ cols, c.valid_from = d ∧ D < c.valid_from) := by
  intro cols
  induction cols with
  | nil => intro D mr up act d; simp [gvt_loop]
  | cons c rest ih =>
    intro D mr up act d
    simp only [gvt_loop]
    rw [ih]
    by_cases h1 : mr.valid_from < c.valid_from ∧ c.valid_from ≤ D
    · simp only [if_pos h1, List.mem_cons]
      have hnup : ¬ D < c.valid_from := not_lt.mpr h1.2
      constructor
      · rintro (hd | ⟨c', hc', hv, hlt⟩)
        · exact Or.inl hd
        · exact Or.inr ⟨c', Or.inr hc', hv, hlt⟩
      · rintro (hd | ⟨c', (rfl | hc'), hv, hlt⟩)
        · exact Or.inl hd
        · exact absurd hlt hnup
        · exact Or.inr ⟨c', hc', hv, hlt⟩
    · by_cases h2 : D < c.valid_from
      · simp only [if_neg h1, if_pos h2, List.mem_append, List.mem_cons,
          List.not_mem_nil, or_false]
        constructor
        · rintro (((hd | hd) | ⟨c', hc', hv, hlt⟩))
          · exact Or.inl hd
          · exact Or.inr ⟨c, Or.inl rfl, hd.symm, h2⟩
          · exact Or.inr ⟨c', Or.inr hc', hv, hlt⟩
        · rintro (hd | ⟨c', (rfl | hc'), hv, hlt⟩)
          · exact Or.inl (Or.inl hd)
          · exact Or.inl (Or.inr hv.symm)
          · exact Or.inr ⟨c', hc', hv, hlt⟩
      · simp only [if_neg h1, if_neg h2, List.mem_cons]
        constructor
        · rintro (hd | ⟨c', hc', hv, hlt⟩)
          · exact Or.inl hd
          · exact Or.inr ⟨c', Or.inr hc', hv, hlt⟩
        · rintro (hd | ⟨c', (rfl | hc'), hv, hlt⟩)
          · exact Or.inl hd
          · exact absurd hlt h2
          · exact Or.inr ⟨c', hc', hv, hlt⟩

/-- C7: `get_valid_timetables` classifies a collection as active exactly
when its `valid_from` is at or before the lookup date (so a collection
dated D is active on D and later, inactive earlier), and the reported next
change date is the minimum `valid_from` among the strictly later
collections, `none` exactly when no such upcoming collection exists. -/
theorem resolver_active_iff_and_next_change (cols : List PdfTimetableCollection) (D : Int) :
    (∀ d : Int, d ∈ (get_valid_timetables cols D).1 ↔
       ∃ c ∈ cols, c.valid_from = d ∧ c.valid_from ≤ D)
    ∧ ((get_valid_timetables cols D).2.2 = none ↔ ∀ c ∈ cols, c.valid_from ≤ D)
    ∧ ∀ m : Int, (get_valid_timetables cols D).2.2 = some m →
        (∃ c ∈ cols, c.valid_from = m) ∧ D < m ∧
          ∀ c ∈ cols, D < c.valid_from → m ≤ c.valid_from := by
  have hact : (get_valid_timetables cols D).1 =
      (((gvt_loop cols D PdfTimetableCollection.newEmpty [] []).2.2).insertionSort
        (· ≤ ·)).reverse := rfl
  have hnext : (get_valid_timetables cols D).2.2 =
      (((gvt_loop cols D PdfTimetableCollection.newEmpty [] []).2.1).insertionSort
        (· ≤ ·)).head? := rfl
  set U := (gvt_loop cols D PdfTimetableCollection.newEmpty [] []).2.1 with hU
  set A := (gvt_loop cols D PdfTimetableCollection.newEmpty [] []).2.2 with hA
  refine ⟨?_, ?_, ?_⟩
  · intro d
    rw [hact, List.mem_reverse, (List.perm_insertionSort (· ≤ ·) A).mem_iff, hA,
      gvt_loop_act_mem]
    simp
  · rw [hnext]
    constructor
    · intro h c hc
      by_contra hlt
      push_neg at hlt
      have hmem : c.valid_from ∈ U := by
        rw [hU, gvt_loop_up_mem]
        exact Or.inr ⟨c, hc, rfl, hlt⟩
      have hmem2 : c.valid_from ∈ U.insertionSort (· ≤ ·) :=
        (List.perm_insertionSort (· ≤ ·) U).mem_iff.mpr hmem
      rw [List.head?_eq_none_iff] at h
      rw [h] at hmem2
      exact absurd hmem2 (List.not_mem_nil _)
    · intro h
      rw [List.head?_eq_none_iff]
      by_contra hne
      obtain ⟨m, hm⟩ := List.exists_mem_of_ne_nil _ hne
      have hmm : m ∈ U := (List.perm_insertionSort (· ≤ ·) U).mem_iff.mp hm
      rw [hU, gvt_loop_up_mem] at hmm
      rcases hmm with h0 | ⟨c, hc, hv, hlt⟩
      · exact absurd h0 (List.not_mem_nil _)
      · exact absurd hlt (not_lt.mpr (h c hc))
  · intro m hm
    rw [hnext] at hm
    cases hsort : U.insertionSort (· ≤ ·) with
    | nil => rw [hsort] at hm; exact absurd hm (by simp)
    | cons a t =>
      rw [hsort] at hm
      have ham : a = m := by simpa using hm
      subst ham
      have hmemU : a ∈ U := by
        have hmm : a ∈ U.insertionSort (· ≤ ·) := by
          rw [hsort]; exact List.mem_cons_self a t
        exact (List.perm_insertionSort (· ≤ ·) U).mem_iff.mp hmm
      rw [hU, gvt_loop_up_mem] at hmemU
      rcases hmemU with h0 | ⟨c, hc, hv, hlt⟩
      · exact absurd h0 (List.not_mem_nil _)
      · refine ⟨⟨c, hc, hv⟩, hv ▸ hlt, ?_⟩
        intro c' hc' hlt'
        have hsorted : List.Sorted (· ≤ ·) (U.insertionSort (· ≤ ·)) :=
          List.sorted_insertionSort (· ≤ ·) U
        rw [hsort] at hsorted
        have hrel := List.rel_of_sorted_cons hsorted
        have hin : c'.valid_from ∈ U := by
          rw [hU, gvt_loop_up_mem]
          exact Or.inr ⟨c', hc', rfl, hlt'⟩
        have hin2 : c'.valid_from ∈ a :: t := by
          rw [← hsort]
          exact (List.perm_insertionSort (· ≤ ·) U).mem_iff.mpr hin
        rcases List.mem_cons.mp hin2 with he | ht
        · exact le_of_eq he.symm
        · exact hrel _ ht

/-- Witness for C7: with collections dated 2020 and 2024 and lookup date
01-06-2022, the 2020 date is active and the next change (2024) is
strictly after the lookup date and listed among the collections. -/
theorem resolver_active_iff_witness :
    dateCode 2020 1 1 ∈ (get_valid_timetables [coll2020, coll2024] (dateCode 2022 6 1)).1
    ∧ dateCode 2022 6 1 < dateCode 2024 1 1
    ∧ ∃ c ∈ [coll2020, coll2024], c.valid_from = dateCode 2024 1 1 :=
  ⟨((resolver_active_iff_and_next_change [coll2020, coll2024] (dateCode 2022 6 1)).1
      (dateCode 2020 1 1)).mpr ⟨coll2020, by decide, by decide, by decide⟩,
   ((resolver_active_iff_and_next_change [coll2020, coll2024] (dateCode 2022 6 1)).2.2
      (dateCode 2024 1 1) (by decide)).2.1,
   ((resolver_active_iff_and_next_change [coll2020, coll2024] (dateCode 2022 6 1)).2.2
      (dateCode 2024 1 1) (by decide)).1⟩
